import Mathlib

set_option maxHeartbeats 1000000

/-!
Shallow embedding of the account gateway in `src/app.py` (the Flask web
front end for custodial ledger accounts).  Python dict/JSON values crossing
the RPC boundary are modelled by `PyVal`; the external ledger process is an
oracle `Ledger` mapping each command (an ordered list of strings, exactly as
passed to `rpc.call`) to either a structured response or a raised transport
exception (`Except.error`).  Each gateway action returns the ordered list of
RPC commands it issued, the resulting assignment table, and an outcome
(`ok` page, error page, or an unhandled Python fault).
-/

namespace Custodial

/-- Python values as they appear in ledger RPC responses and request forms. -/
inductive PyVal where
  | str (s : String)
  | int (n : Int)
  | dict (fields : List (String × PyVal))

/-- Is this value a Python `str`? -/
def PyVal.isStr : PyVal → Bool
  | .str _ => true
  | _ => false

/-- Is this value a Python `int`? -/
def PyVal.isInt : PyVal → Bool
  | .int _ => true
  | _ => false

/-- Extract a Python string, if the value is one. -/
def strOf : PyVal → Option String
  | .str s => some s
  | _ => none

/-- Extract a Python integer, if the value is one. -/
def intOf : PyVal → Option Int
  | .int n => some n
  | _ => none

mutual

/-- Python `repr` of a value (single-quoted strings, brace-wrapped dicts). -/
def pyRepr : PyVal → String
  | .str s => "\x27" ++ s ++ "\x27"
  | .int n => toString n
  | .dict fs => "\x7b" ++ String.intercalate ", " (pyReprFields fs) ++ "\x7d"

/-- `repr` of the key/value pairs of a Python dict. -/
def pyReprFields : List (String × PyVal) → List String
  | [] => []
  | kv :: rest => ("\x27" ++ kv.1 ++ "\x27: " ++ pyRepr kv.2) :: pyReprFields rest

end

/-- Python `str()` of a value. -/
def pyStr : PyVal → String
  | .str s => s
  | v => pyRepr v

/-- `str.title()` on a list of characters: an alphabetic character is
uppercased when it follows a non-alphabetic one and lowercased otherwise
(`prev` records whether the previous character was alphabetic). -/
def titleChars : Bool → List Char → List Char
  | _, [] => []
  | prev, c :: cs =>
    if c.isAlpha then
      (if prev then c.toLower else c.toUpper) :: titleChars true cs
    else
      c :: titleChars false cs

/-- Python `s.title()`. -/
def pythonTitle (s : String) : String := ⟨titleChars false s.data⟩

/-- Python `s.replace("_", " ")`. -/
def spaceUnderscores (s : String) : String :=
  ⟨s.data.map (fun c => if c = '_' then ' ' else c)⟩

/-- One receipt entry: a ledger-issued mapping of field name to value,
in dict iteration (= insertion) order. -/
abbrev Entry := List (String × PyVal)

/-- One receipt session: an ordered list of entries. -/
abbrev Session := List Entry

/-- A display entry produced by `format_receipts`: the optional reserved
`type` and `time` fields plus the ordered `values` list of label/string
pairs (`new_entry` in the source). -/
structure FEntry where
  type : Option String
  time : Option String
  values : List (String × String)
deriving DecidableEq

/-- A display session produced by `format_receipts` (`new_session`). -/
structure FSession where
  entries : List FEntry
deriving DecidableEq

/-- One iteration of the `for k, v in entry.items()` loop in
`format_receipts`: reserved keys update `type`/`time`, the `wad` key and
every other key append to `values`.  `none` models the Python exception
raised when `type` is not a string, `time` is not a number, or the amount
codec rejects the `wad` record.  The codec (`Wad.from_dict` / `str`) and
`time.ctime` live outside this repository and are abstracted as the
parameters `wadC`, `wadS` and `ctime`. -/
def stepEntry {W : Type} (ctime : Int → String) (wadC : PyVal → Except String W)
    (wadS : W → String) (acc : FEntry) (kv : String × PyVal) : Option FEntry :=
  if kv.1 = "type" then
    match strOf kv.2 with
    | some s => some { acc with type := some (pythonTitle (spaceUnderscores s)) }
    | none => none
  else if kv.1 = "time" then
    match intOf kv.2 with
    | some n => some { acc with time := some (ctime n) }
    | none => none
  else if kv.1 = "wad" then
    match wadC kv.2 with
    | .ok w => some { acc with values := acc.values ++ [("Wad", wadS w)] }
    | .error _ => none
  else
    some { acc with values := acc.values ++ [(pythonTitle kv.1, pyStr kv.2)] }

/-- The inner field loop of `format_receipts`, threading `new_entry`. -/
def formatEntryGo {W : Type} (ctime : Int → String) (wadC : PyVal → Except String W)
    (wadS : W → String) (acc : FEntry) : Entry → Option FEntry
  | [] => some acc
  | kv :: rest =>
    match stepEntry ctime wadC wadS acc kv with
    | some acc2 => formatEntryGo ctime wadC wadS acc2 rest
    | none => none

/-- Formatting of one entry, starting from `new_entry = {'values': []}`. -/
def formatEntry {W : Type} (ctime : Int → String) (wadC : PyVal → Except String W)
    (wadS : W → String) (e : Entry) : Option FEntry :=
  formatEntryGo ctime wadC wadS ⟨none, none, []⟩ e

/-- The entry loop of `format_receipts` over one session, appending each
formatted entry in order. -/
def formatSession {W : Type} (ctime : Int → String) (wadC : PyVal → Except String W)
    (wadS : W → String) : Session → Option (List FEntry)
  | [] => some []
  | e :: rest =>
    match formatEntry ctime wadC wadS e, formatSession ctime wadC wadS rest with
    | some fe, some frest => some (fe :: frest)
    | _, _ => none

/-- `format_receipts` from `src/app.py`: the session loop, appending each
formatted session in order.  A pure transform of its input. -/
def format_receipts {W : Type} (ctime : Int → String) (wadC : PyVal → Except String W)
    (wadS : W → String) : List Session → Option (List FSession)
  | [] => some []
  | s :: rest =>
    match formatSession ctime wadC wadS s, format_receipts ctime wadC wadS rest with
    | some fs, some frest => some (⟨fs⟩ :: frest)
    | _, _ => none

/-- Did an `Except` computation succeed? -/
def exceptOk {ε α : Type} : Except ε α → Bool
  | .ok _ => true
  | .error _ => false

/-- A well-formed receipt entry: `type` holds a string, `time` holds an
integer, and the amount codec accepts every `wad` record. -/
def entryWT {W : Type} (wadC : PyVal → Except String W) (e : Entry) : Bool :=
  e.all (fun kv =>
    if kv.1 = "type" then kv.2.isStr
    else if kv.1 = "time" then kv.2.isInt
    else if kv.1 = "wad" then exceptOk (wadC kv.2)
    else true)

/-- All entries of all sessions are well formed. -/
def receiptsWT {W : Type} (wadC : PyVal → Except String W) (receipts : List Session) : Bool :=
  receipts.all (fun s => s.all (entryWT wadC))

/-- The display `type` resulting from folding an entry over seed `a`:
the last `type` field, underscores replaced by spaces, then title-cased. -/
def typeAcc (a : Option String) (e : Entry) : Option String :=
  e.foldl (fun acc kv =>
    if kv.1 = "type" then
      match strOf kv.2 with
      | some s => some (pythonTitle (spaceUnderscores s))
      | none => acc
    else acc) a

/-- The display `time` resulting from folding an entry over seed `a`:
the last `time` field rendered by `ctime`. -/
def timeAcc (ctime : Int → String) (a : Option String) (e : Entry) : Option String :=
  e.foldl (fun acc kv =>
    if kv.1 = "time" then
      match intOf kv.2 with
      | some n => some (ctime n)
      | none => acc
    else acc) a

/-- The display values of an entry, per the specification: every field other
than `type`/`time` in entry order, `wad` decoded via the amount codec under
the label `Wad`, any other field as (title-cased name, string form). -/
def specValues {W : Type} (wadC : PyVal → Except String W) (wadS : W → String)
    (e : Entry) : List (String × String) :=
  e.filterMap (fun kv =>
    if kv.1 = "type" then none
    else if kv.1 = "time" then none
    else if kv.1 = "wad" then
      match wadC kv.2 with
      | .ok w => some ("Wad", wadS w)
      | .error _ => none
    else some (pythonTitle kv.1, pyStr kv.2))

/-- The display entry predicted by the specification's field-by-field
description of the receipt formatter. -/
def specEntry {W : Type} (ctime : Int → String) (wadC : PyVal → Except String W)
    (wadS : W → String) (e : Entry) : FEntry :=
  { type := typeAcc none e
    time := timeAcc ctime none e
    values := specValues wadC wadS e }

/-! ## The RPC layer -/

/-- A structured ledger response dict.  The Python responses are dicts whose
keys depend on the command; the embedding totalizes them into one record
(fields unused by a given command are ignored by its caller). -/
structure RResp where
  success : Bool
  error : String
  name : String
  receipts : List Session
  accounts : List Entry

/-- The external ledger process reached through `TerminusRpc`: maps a
command (the exact string list handed to `rpc.call`) to a structured
response, or to a raised transport exception (`Except.error`). -/
def Ledger : Type := List String → Except String RResp

/-- What an `*_rpc` wrapper in `src/app.py` returns: either the ledger's own
response dict, or the literal error dict built in the `except` branch,
whose only keys are `success: False` and `error: "RPC exception"`. -/
inductive WrapResult where
  | resp (r : RResp)
  | exnErr

/-- `info['success']` on a wrapper result. -/
def WrapResult.success : WrapResult → Bool
  | .resp r => r.success
  | .exnErr => false

/-- `info['error']` on a wrapper result. -/
def WrapResult.error : WrapResult → String
  | .resp r => r.error
  | .exnErr => "RPC exception"

/-- `info['name']` on a wrapper result (only read after a success check;
`.exnErr` carries `success = false`, so its value here is never reached). -/
def WrapResult.name : WrapResult → String
  | .resp r => r.name
  | .exnErr => ""

/-- `info['receipts']` on a wrapper result (only read after a success check). -/
def WrapResult.receipts : WrapResult → List Session
  | .resp r => r.receipts
  | .exnErr => []

/-- The shared `try/except` shape of every `*_rpc` helper: a raised
exception becomes the `{'success': False, 'error': "RPC exception"}` dict. -/
def wrapCall (r : Except String RResp) : WrapResult :=
  match r with
  | .ok info => .resp info
  | .error _ => .exnErr

/-- `clear_rpc` from `src/app.py`. -/
def clear_rpc (L : Ledger) (account : String) : WrapResult :=
  wrapCall (L ["clear", account])

/-- `rm_rpc` from `src/app.py`. -/
def rm_rpc (L : Ledger) (account : String) : WrapResult :=
  wrapCall (L ["rm", account])

/-- `connect_rpc` from `src/app.py`. -/
def connect_rpc (L : Ledger) (account beacon : String) : WrapResult :=
  wrapCall (L ["connect", account, beacon])

/-- `getaccountreceipts_rpc` from `src/app.py`. -/
def getaccountreceipts_rpc (L : Ledger) (account : String) : WrapResult :=
  wrapCall (L ["getaccountreceipts", account])

/-- The configuration values the gateway reads (`config[...]`); the ledger
cap and start balance stay strings, as in the config file. -/
structure Config where
  cap : String
  startBalance : String
  accountsPerUser : Nat
  relayLocation : String

/-- The command list built in `create_rpc`:
`['create', '-a', username, '-c', cap, start]`. -/
def createCmd (cfg : Config) (username : String) : List String :=
  ["create", "-a", username, "-c", cfg.cap, cfg.startBalance]

/-- `create_rpc` from `src/app.py`. -/
def create_rpc (L : Ledger) (cfg : Config) (username : String) : WrapResult :=
  wrapCall (L (createCmd cfg username))

/-! ## Local persistent state -/

/-- A row of the `UserModel` table (the fields the gateway reads). -/
structure UserRec where
  id : Nat
  username : String
deriving DecidableEq

/-- The relational state the gateway touches: the user table and the
`AccountAssignment` rows (user id, account name) in insertion order. -/
structure Db where
  users : List UserRec
  assignments : List (Nat × String)
deriving DecidableEq

/-- `user_accounts()` from `src/app.py`: the account names assigned to the
current user, in assignment order. -/
def user_accounts (uid : Nat) (st : Db) : List String :=
  (st.assignments.filter (fun aa => aa.1 = uid)).map (fun aa => aa.2)

/-- The command list built in `getaccountinfo_rpc`:
`['getaccountinfo'] + user_accounts()`. -/
def gaiCmd (uid : Nat) (st : Db) : List String :=
  "getaccountinfo" :: user_accounts uid st

/-- Python `d[k]` on a dict: the value, or a raised `KeyError`. -/
def getKey (d : Entry) (k : String) : Except String PyVal :=
  match d.find? (fun kv => kv.1 = k) with
  | some kv => .ok kv.2
  | none => .error "KeyError"

/-- Python `d[k] = v` on a dict whose key `k` is present. -/
def setKey (d : Entry) (k : String) (v : PyVal) : Entry :=
  d.map (fun kv => if kv.1 = k then (k, v) else kv)

/-- The body of the account loop in `getaccountinfo_rpc`:
`account['wad'] = str(Wad.from_dict(account['wad']))` and likewise for
`cap`; any raised exception propagates to the surrounding `try`. -/
def decorateAccount {W : Type} (wadC : PyVal → Except String W) (wadS : W → String)
    (acct : Entry) : Except String Entry := do
  let wv ← getKey acct "wad"
  let w ← wadC wv
  let acct1 := setKey acct "wad" (.str (wadS w))
  let cv ← getKey acct1 "cap"
  let c ← wadC cv
  pure (setKey acct1 "cap" (.str (wadS c)))

/-- The account loop of `getaccountinfo_rpc` over `info['accounts']`. -/
def decorateAccounts {W : Type} (wadC : PyVal → Except String W) (wadS : W → String) :
    List Entry → Except String (List Entry)
  | [] => .ok []
  | a :: rest =>
    match decorateAccount wadC wadS a, decorateAccounts wadC wadS rest with
    | .ok a2, .ok rest2 => .ok (a2 :: rest2)
    | .error e, _ => .error e
    | _, .error e => .error e

/-- What `getaccountinfo_rpc` returns: the decorated account list, or the
error dict from the `except` branch. -/
inductive GaiResult where
  | accounts (l : List Entry)
  | err (msg : String)

/-- `getaccountinfo_rpc` from `src/app.py`: queries the ledger for the
current user's accounts and renders each balance and cap through the amount
codec; any exception (transport or decode) yields the generic error dict. -/
def getaccountinfo_rpc {W : Type} (wadC : PyVal → Except String W) (wadS : W → String)
    (L : Ledger) (uid : Nat) (st : Db) : GaiResult :=
  match (L (gaiCmd uid st)).bind (fun info => decorateAccounts wadC wadS info.accounts) with
  | .ok l => .accounts l
  | .error _ => .err "RPC exception"

/-! ## Gateway actions -/

/-- How an action's HTTP request ends: a normal page, a page carrying an
error message, or an unhandled Python exception (a 500 fault). -/
inductive Outcome where
  | ok
  | errPage (msg : String)
  | fault
deriving DecidableEq

/-- The observable result of one gateway action: the RPC commands issued in
order, the assignment table afterwards, and the request outcome. -/
structure ActionOut where
  calls : List (List String)
  db : Db
  outcome : Outcome
deriving DecidableEq

/-- `render_accounts` from `src/app.py`: renders the accounts page, issuing
one `getaccountinfo` query for the current user's accounts (the query's
payload only feeds the template, so only its command is recorded). -/
def renderAccounts (uid : Nat) (st : Db) (err : Option String) : ActionOut :=
  { calls := [gaiCmd uid st]
    db := st
    outcome := match err with | none => .ok | some m => .errPage m }

/-- `clear_beacons` from `src/app.py`. -/
def clear_beacons (L : Ledger) (uid : Nat) (st : Db) (account : String) : ActionOut :=
  let info := clear_rpc L account
  if info.success = false then
    let r := renderAccounts uid st (some info.error)
    { r with calls := ["clear", account] :: r.calls }
  else
    let r := renderAccounts uid st none
    { r with calls := ["clear", account] :: r.calls }

/-- Modelled from the spec: `MoneysocketBeacon` lives in the external
`moneysocket` library, not in this repository.  Per the spec a beacon is
"one or more relay locations plus an implicit ephemeral identifier,
serializable to a single opaque string"; the ephemeral identifier drawn at
construction time is the `sharedSeed`. -/
structure BeaconM where
  sharedSeed : String
  locations : List String

/-- Modelled from the spec: constructing `MoneysocketBeacon()` with the
fresh ephemeral identifier `seed`. -/
def mkBeacon (seed : String) : BeaconM :=
  { sharedSeed := seed, locations := [] }

/-- Modelled from the spec: `beacon.add_location(location)`. -/
def addLocation (b : BeaconM) (loc : String) : BeaconM :=
  { b with locations := b.locations ++ [loc] }

/-- Modelled from the spec: `str(beacon)`, the serialized descriptor, which
embeds the relay locations and the ephemeral identifier. -/
def beaconStr (b : BeaconM) : String :=
  "moneysocket1:" ++ String.intercalate ";" b.locations ++ ":" ++ b.sharedSeed

/-- The beacon built inside `generate_beacon`: a fresh `MoneysocketBeacon()`
with the one configured relay location added. -/
def connectBeacon (cfg : Config) (seed : String) : BeaconM :=
  addLocation (mkBeacon seed) cfg.relayLocation

/-- `generate_beacon` from `src/app.py`; `seed` is the ephemeral identifier
the beacon constructor draws on this invocation. -/
def generate_beacon (L : Ledger) (seed : String) (uid : Nat) (st : Db) (cfg : Config)
    (account : String) : ActionOut :=
  let b := connectBeacon cfg seed
  let info := connect_rpc L account (beaconStr b)
  if info.success = false then
    let r := renderAccounts uid st (some info.error)
    { r with calls := ["connect", account, beaconStr b] :: r.calls }
  else
    let r := renderAccounts uid st none
    { r with calls := ["connect", account, beaconStr b] :: r.calls }

/-- `list_receipts` / `render_receipts` from `src/app.py`: fetch the raw
receipt sessions, fall back to the accounts page on a reported failure, and
otherwise format them for the receipts page (a Python exception inside
`format_receipts` would escape unhandled: outcome `fault`). -/
def list_receipts {W : Type} (ctime : Int → String) (wadC : PyVal → Except String W)
    (wadS : W → String) (L : Ledger) (uid : Nat) (st : Db) (account : String) : ActionOut :=
  let info := getaccountreceipts_rpc L account
  if info.success = false then
    let r := renderAccounts uid st (some info.error)
    { r with calls := ["getaccountreceipts", account] :: r.calls }
  else
    match format_receipts ctime wadC wadS info.receipts with
    | some _ => { calls := [["getaccountreceipts", account]], db := st, outcome := .ok }
    | none => { calls := [["getaccountreceipts", account]], db := st, outcome := .fault }

/-- Deleting the row object returned by
`AccountAssignment.query.filter_by(account_name=account).first()`:
the first assignment row carrying that account name, whoever owns it. -/
def deleteFirstByName (a : String) : List (Nat × String) → List (Nat × String)
  | [] => []
  | r :: rs => if r.2 = a then rs else r :: deleteFirstByName a rs

/-- `remove_account` from `src/app.py`: `clear`, then (only on success)
`rm`, then (only on success) delete the local assignment row.  When no row
matches, `first()` is `None` and `db.session.delete(None)` raises: outcome
`fault`, table untouched. -/
def remove_account (L : Ledger) (uid : Nat) (st : Db) (account : String) : ActionOut :=
  let info := clear_rpc L account
  if info.success = false then
    let r := renderAccounts uid st (some info.error)
    { r with calls := ["clear", account] :: r.calls }
  else
    let info2 := rm_rpc L account
    if info2.success = false then
      let r := renderAccounts uid st (some info2.error)
      { r with calls := ["clear", account] :: ["rm", account] :: r.calls }
    else
      match st.assignments.find? (fun aa => aa.2 = account) with
      | none =>
        { calls := [["clear", account], ["rm", account]], db := st, outcome := .fault }
      | some _ =>
        let st2 : Db := { st with assignments := deleteFirstByName account st.assignments }
        let r := renderAccounts uid st2 none
        { r with calls := ["clear", account] :: ["rm", account] :: r.calls }

/-- The cap message `"max %d accounts per user" % limit`. -/
def capMsg (limit : Nat) : String :=
  "max " ++ toString limit ++ " accounts per user"

/-- `new_account` from `src/app.py`: cap check on the current user, ledger
`create`, then the post-creation lookup
`UserModel.query.filter_by(username=username).first()` — keyed on the
requested label, not on the caller — and the assignment insert on the found
user's id.  When no user matches, `u` is `None` and `u.id` raises: outcome
`fault`. -/
def new_account (L : Ledger) (uid : Nat) (st : Db) (cfg : Config) (username : String) :
    ActionOut :=
  let ua := user_accounts uid st
  if ua.length ≥ cfg.accountsPerUser then
    renderAccounts uid st (some (capMsg cfg.accountsPerUser))
  else
    let info := create_rpc L cfg username
    if info.success = false then
      let r := renderAccounts uid st (some info.error)
      { r with calls := createCmd cfg username :: r.calls }
    else
      let account_name := info.name
      match st.users.find? (fun u => u.username = username) with
      | none =>
        { calls := [createCmd cfg username], db := st, outcome := .fault }
      | some u =>
        let st2 : Db := { st with assignments := st.assignments ++ [(u.id, account_name)] }
        let r := renderAccounts uid st2 none
        { r with calls := createCmd cfg username :: r.calls }

/-! ## Operation sequences -/

/-- One gateway operation in a run: a `Create` or a `Remove`, tagged with
the ledger oracle answering its RPC round trips, the authenticated caller,
and the form argument. -/
inductive GOp where
  | create (L : Ledger) (caller : Nat) (label : String)
  | remove (L : Ledger) (caller : Nat) (account : String)

/-- Run one operation against the current state. -/
def applyOp (cfg : Config) (st : Db) : GOp → ActionOut
  | .create L c lbl => new_account L c st cfg lbl
  | .remove L c a => remove_account L c st a

/-- The state after a sequence of operations. -/
def execOps (cfg : Config) (st : Db) : List GOp → Db
  | [] => st
  | op :: rest => execOps cfg (applyOp cfg st op).db rest

/-- Every operation of the sequence completed successfully (a normal page,
no error page and no fault). -/
def opsOk (cfg : Config) (st : Db) : List GOp → Bool
  | [] => true
  | op :: rest =>
    (applyOp cfg st op).outcome == Outcome.ok && opsOk cfg (applyOp cfg st op).db rest

/-- A `create` operation requests the calling user's own registered
username as the account label (`remove` operations are unconstrained). -/
def createOwn (users : List UserRec) : GOp → Bool
  | .create _ c lbl => users.any (fun u => u.id == c && u.username == lbl)
  | .remove _ _ _ => true

/-- The RPC commands of an action other than the `getaccountinfo` query
issued by page rendering. -/
def nonRender (out : ActionOut) : List (List String) :=
  out.calls.filter (fun c => c.head? != some "getaccountinfo")

/-! ## Concrete fixtures for counterexamples and witnesses -/

/-- A ledger that answers every command with success, reporting `nm` as the
created account name. -/
def okLedger (nm : String) : Ledger := fun _ =>
  .ok { success := true, error := "", name := nm, receipts := [], accounts := [] }

/-- A ledger that answers every command with a structured failure. -/
def noLedger : Ledger := fun _ =>
  .ok { success := false, error := "ledger says no", name := "", receipts := [], accounts := [] }

/-- A ledger whose transport raises on every command. -/
def exnLedger : Ledger := fun _ => .error "connection refused"

/-- A ledger on which `clear` succeeds but `rm` fails. -/
def rmFailLedger : Ledger := fun cmd =>
  if cmd.head? = some "rm" then
    .ok { success := false, error := "rm refused", name := "", receipts := [], accounts := [] }
  else
    .ok { success := true, error := "", name := "", receipts := [], accounts := [] }

/-- A configuration with a one-account-per-user limit. -/
def cfg1 : Config :=
  { cap := "1000000", startBalance := "0", accountsPerUser := 1, relayLocation := "relay.socket.money:443" }

/-- Two registered users. -/
def twoUsers : List UserRec := [⟨1, "alice"⟩, ⟨2, "bob"⟩]

/-- Alice and Bob registered, Alice owning one assignment. -/
def stAlice1 : Db := { users := twoUsers, assignments := [(1, "acct1")] }

/-- Alice and Bob registered, no assignments yet. -/
def stEmpty2 : Db := { users := twoUsers, assignments := [] }

/-- Only Alice registered, no assignments. -/
def stOneUser : Db := { users := [⟨1, "alice"⟩], assignments := [] }

/-- Alice and Bob registered, one assignment not named `ghost`. -/
def stOther : Db := { users := twoUsers, assignments := [(1, "other")] }

/-- A successful-run sequence from the empty table: Bob creates under his
own username, then Alice creates requesting the label `bob`. -/
def cexOps : List GOp :=
  [.create (okLedger "acctB1") 2 "bob", .create (okLedger "acctB2") 1 "bob"]

/-- A one-operation run: Alice creates under her own username. -/
def ownOps : List GOp := [.create (okLedger "n1") 1 "alice"]

/-- The spec's example receipt input: one session, one entry. -/
def wEx : List Session :=
  [[[("type", .str "lightning_payment"), ("time", .int 1700000000), ("wad", .dict [])]]]

/-- A concrete stand-in for `time.ctime` in witnesses. -/
def ctimeW : Int → String := fun _ => "Tue Nov 14 22:13:20 2023"

/-- A concrete stand-in for `Wad.from_dict` in witnesses. -/
def wadCW : PyVal → Except String Unit := fun _ => .ok ()

/-- A concrete stand-in for `str(wad)` in witnesses. -/
def wadSW : Unit → String := fun _ => "$5"

end Custodial

/-! ## Theorems -/

namespace Custodial

/-- Folding the field loop of `format_receipts` over a well-formed entry
computes the specification's field-by-field description, for any starting
accumulator. -/
theorem formatEntryGo_eq {W : Type} (ctime : Int → String) (wadC : PyVal → Except String W)
    (wadS : W → String) :
    ∀ (e : Entry) (acc : FEntry), entryWT wadC e = true →
    formatEntryGo ctime wadC wadS acc e = some
      { type := typeAcc acc.type e
        time := timeAcc ctime acc.time e
        values := acc.values ++ specValues wadC wadS e } := by
  intro e
  induction e with
  | nil => intro acc _; simp [formatEntryGo, typeAcc, timeAcc, specValues]
  | cons kv rest ih =>
    intro acc hwt
    rw [entryWT, List.all_cons] at hwt
    obtain ⟨hkv, hrest⟩ := Bool.and_eq_true_iff.mp hwt
    by_cases h1 : kv.1 = "type"
    · simp only [h1, if_pos rfl] at hkv
      cases hv : kv.2 with
      | str s =>
        simp [formatEntryGo, stepEntry, h1, hv, strOf, ih _ hrest, typeAcc, timeAcc,
          specValues, List.foldl_cons]
      | int n => rw [hv] at hkv; simp [PyVal.isStr] at hkv
      | dict fs => rw [hv] at hkv; simp [PyVal.isStr] at hkv
    · by_cases h2 : kv.1 = "time"
      · simp only [h1, h2, if_neg, if_pos rfl] at hkv
        cases hv : kv.2 with
        | int n =>
          simp [formatEntryGo, stepEntry, h1, h2, hv, intOf, ih _ hrest, typeAcc, timeAcc,
            specValues, List.foldl_cons]
        | str s => rw [hv] at hkv; simp [PyVal.isInt] at hkv
        | dict fs => rw [hv] at hkv; simp [PyVal.isInt] at hkv
      · by_cases h3 : kv.1 = "wad"
        · simp only [h1, h2, h3, if_neg, if_pos rfl] at hkv
          cases hc : wadC kv.2 with
          | ok w =>
            simp [formatEntryGo, stepEntry, h1, h2, h3, hc, ih _ hrest, typeAcc, timeAcc,
              specValues, List.foldl_cons]
          | error e => rw [hc] at hkv; simp [exceptOk] at hkv
        · simp [formatEntryGo, stepEntry, h1, h2, h3, ih _ hrest, typeAcc, timeAcc,
            specValues, List.foldl_cons]

/-- The entry loop of `format_receipts` maps `specEntry` over a session of
well-formed entries, preserving order. -/
theorem formatSession_eq {W : Type} (ctime : Int → String) (wadC : PyVal → Except String W)
    (wadS : W → String) :
    ∀ (s : Session), s.all (entryWT wadC) = true →
    formatSession ctime wadC wadS s = some (s.map (specEntry ctime wadC wadS)) := by
  intro s
  induction s with
  | nil => intro _; simp [formatSession]
  | cons e rest ih =>
    intro h
    rw [List.all_cons] at h
    obtain ⟨he, hrest⟩ := Bool.and_eq_true_iff.mp h
    rw [formatSession, formatEntry, formatEntryGo_eq ctime wadC wadS e _ he, ih hrest]
    simp [specEntry]

/-- `deleteFirstByName` is the identity when no row carries the name. -/
theorem deleteFirstByName_eq_self {a : String} :
    ∀ {l : List (Nat × String)}, l.find? (fun r => r.2 = a) = none →
    deleteFirstByName a l = l := by
  intro l
  induction l with
  | nil => intro _; rfl
  | cons r rs ih =>
    intro h
    rw [List.find?_cons] at h
    by_cases hr : r.2 = a
    · simp [hr] at h
    · rw [decide_eq_false hr] at h
      rw [deleteFirstByName, if_neg hr, ih h]

/-- Deleting one row by account name never increases any filtered count. -/
theorem length_filter_deleteFirstByName (a : String) (p : Nat × String → Bool) :
    ∀ l : List (Nat × String),
      ((deleteFirstByName a l).filter p).length ≤ (l.filter p).length := by
  intro l
  induction l with
  | nil => simp [deleteFirstByName]
  | cons r rs ih =>
    by_cases hr : r.2 = a
    · rw [deleteFirstByName, if_pos hr]
      cases hp : p r <;> simp [List.filter_cons, hp] <;> try omega
    · rw [deleteFirstByName, if_neg hr]
      cases hp : p r <;> simp [List.filter_cons, hp] <;> omega

/-- `new_account` never touches the user table. -/
theorem new_db_users (L : Ledger) (uid : Nat) (st : Db) (cfg : Config) (lbl : String) :
    (new_account L uid st cfg lbl).db.users = st.users := by
  by_cases hcap : (user_accounts uid st).length ≥ cfg.accountsPerUser
  · simp [new_account, renderAccounts, hcap]
  · by_cases hok : (create_rpc L cfg lbl).success
    · cases hf : st.users.find? (fun x => x.username = lbl) <;>
        simp [new_account, renderAccounts, hcap, hok, hf]
    · have hok' : (create_rpc L cfg lbl).success = false := by simpa using hok
      simp [new_account, renderAccounts, hcap, hok']

/-- `remove_account` never touches the user table. -/
theorem remove_db_users (L : Ledger) (uid : Nat) (st : Db) (a : String) :
    (remove_account L uid st a).db.users = st.users := by
  by_cases hc : (clear_rpc L a).success
  · by_cases hr : (rm_rpc L a).success
    · cases hf : st.assignments.find? (fun aa => aa.2 = a) <;>
        simp [remove_account, renderAccounts, hc, hr, hf]
    · have hr' : (rm_rpc L a).success = false := by simpa using hr
      simp [remove_account, renderAccounts, hc, hr']
  · have hc' : (clear_rpc L a).success = false := by simpa using hc
    simp [remove_account, renderAccounts, hc']

/-- `remove_account` leaves the assignment table unchanged or deletes the
first row carrying the account name. -/
theorem remove_db_assignments (L : Ledger) (uid : Nat) (st : Db) (a : String) :
    (remove_account L uid st a).db.assignments = deleteFirstByName a st.assignments ∨
    (remove_account L uid st a).db.assignments = st.assignments := by
  by_cases hc : (clear_rpc L a).success
  · by_cases hr : (rm_rpc L a).success
    · cases hf : st.assignments.find? (fun aa => aa.2 = a) with
      | none => right; simp [remove_account, renderAccounts, hc, hr, hf]
      | some aa => left; simp [remove_account, renderAccounts, hc, hr, hf]
    · have hr' : (rm_rpc L a).success = false := by simpa using hr
      right; simp [remove_account, renderAccounts, hc, hr']
  · have hc' : (clear_rpc L a).success = false := by simpa using hc
    right; simp [remove_account, renderAccounts, hc']

/-- A fully successful `new_account` passed the cap check on the caller and
inserted one row for the user found by the label lookup. -/
theorem new_account_ok_spec (L : Ledger) (uid : Nat) (st : Db) (cfg : Config) (lbl : String)
    (h : (new_account L uid st cfg lbl).outcome = .ok) :
    (user_accounts uid st).length < cfg.accountsPerUser ∧
    ∃ u, st.users.find? (fun x => x.username = lbl) = some u ∧
      (new_account L uid st cfg lbl).db =
        { st with assignments := st.assignments ++ [(u.id, (create_rpc L cfg lbl).name)] } := by
  by_cases hcap : (user_accounts uid st).length ≥ cfg.accountsPerUser
  · simp [new_account, renderAccounts, hcap] at h
  · by_cases hok : (create_rpc L cfg lbl).success
    · cases hf : st.users.find? (fun x => x.username = lbl) with
      | none => simp [new_account, renderAccounts, hcap, hok, hf] at h
      | some u =>
        refine ⟨by omega, u, rfl, ?_⟩
        simp [new_account, renderAccounts, hcap, hok, hf]
    · have hok' : (create_rpc L cfg lbl).success = false := by simpa using hok
      simp [new_account, renderAccounts, hcap, hok'] at h

/-- Appending one assignment row raises exactly its owner's count by one. -/
theorem user_accounts_snoc (uid c : Nat) (nm : String) (st : Db) :
    (user_accounts uid { st with assignments := st.assignments ++ [(c, nm)] }).length =
    (user_accounts uid st).length + (if c = uid then 1 else 0) := by
  by_cases h : c = uid <;>
    simp [user_accounts, List.filter_append, List.filter_cons, h]

/-- A user's account count is the filtered length of the assignment table. -/
theorem user_accounts_length_eq (uid : Nat) (st : Db) :
    (user_accounts uid st).length = (st.assignments.filter (fun aa => aa.1 = uid)).length := by
  simp [user_accounts]

/-- Invariant carrier for the per-user cap: over any successful run whose
`create` operations each request the calling user's own registered username,
every per-user count bounded by the cap stays bounded. -/
theorem execOps_cap_inv (cfg : Config) (users : List UserRec)
    (hnd : (users.map UserRec.username).Nodup) :
    ∀ (ops : List GOp) (st : Db), st.users = users →
      ops.all (createOwn users) = true →
      opsOk cfg st ops = true →
      (∀ uid, (user_accounts uid st).length ≤ cfg.accountsPerUser) →
      ∀ uid, (user_accounts uid (execOps cfg st ops)).length ≤ cfg.accountsPerUser := by
  intro ops
  induction ops with
  | nil => intro st _ _ _ hinv uid; exact hinv uid
  | cons op rest ih =>
    intro st hu hall hok hinv uid
    rw [List.all_cons, Bool.and_eq_true] at hall
    obtain ⟨hop, hrest⟩ := hall
    rw [opsOk, Bool.and_eq_true, beq_iff_eq] at hok
    obtain ⟨hokop, hokrest⟩ := hok
    rw [execOps]
    have husers : (applyOp cfg st op).db.users = users := by
      cases op with
      | create Lc c lbl => rw [applyOp, new_db_users]; exact hu
      | remove Lr c a => rw [applyOp, remove_db_users]; exact hu
    refine ih _ husers hrest hokrest ?_ uid
    intro uid2
    cases op with
    | remove Lr c a =>
      rw [applyOp] at *
      rcases remove_db_assignments Lr c st a with hd | hd
      · rw [user_accounts_length_eq, hd]
        calc ((deleteFirstByName a st.assignments).filter (fun aa => aa.1 = uid2)).length
            ≤ (st.assignments.filter (fun aa => aa.1 = uid2)).length :=
              length_filter_deleteFirstByName a _ st.assignments
          _ ≤ cfg.accountsPerUser := by rw [← user_accounts_length_eq]; exact hinv uid2
      · rw [user_accounts_length_eq, hd, ← user_accounts_length_eq]
        exact hinv uid2
    | create Lc c lbl =>
      rw [applyOp] at *
      obtain ⟨hcap, u, hfind, hdb⟩ := new_account_ok_spec Lc c st cfg lbl hokop
      have humem : u ∈ st.users := List.mem_of_find?_eq_some hfind
      have hulbl : u.username = lbl := by
        have := List.find?_some hfind
        simpa using this
      rw [createOwn, List.any_eq_true] at hop
      obtain ⟨w, hwmem, hw⟩ := hop
      rw [Bool.and_eq_true, beq_iff_eq, beq_iff_eq] at hw
      obtain ⟨hwid, hwlbl⟩ := hw
      have huw : u = w :=
        List.inj_on_of_nodup_map hnd (hu ▸ humem) hwmem (by rw [hulbl, hwlbl])
      have hid : u.id = c := by rw [huw, hwid]
      rw [hdb, user_accounts_snoc, hid]
      by_cases he : c = uid2
      · rw [if_pos he, ← he]
        omega
      · rw [if_neg he]
        have := hinv uid2
        omega

/-- Appending a fixed suffix preserves distinctness of strings. -/
theorem append_ne_append_right {p s t : String} (h : s ≠ t) : p ++ s ≠ p ++ t := by
  intro he
  apply h
  have hd := congrArg String.data he
  rw [String.data_append, String.data_append] at hd
  exact String.ext (List.append_cancel_left hd)

end Custodial

namespace Custodial

/-- C1: `Remove(accountName)` is a compound, ordered, non-atomic sequence.
The first RPC issued is always the ledger `clear`; if `clear` reports
failure no `rm` command is ever issued and the assignment table is
unchanged; if `clear` succeeds and `rm` fails, exactly `clear` then `rm`
were issued and the assignment table is unchanged; only when both succeed
is the local assignment row deleted. -/
theorem c1_remove_ordering (L : Ledger) (uid : Nat) (st : Db) (a : String) :
    (remove_account L uid st a).calls.head? = some ["clear", a] ∧
    ((clear_rpc L a).success = false →
      (∀ c ∈ (remove_account L uid st a).calls, c.head? ≠ some "rm") ∧
      (remove_account L uid st a).db = st) ∧
    ((clear_rpc L a).success = true → (rm_rpc L a).success = false →
      (remove_account L uid st a).calls = [["clear", a], ["rm", a], gaiCmd uid st] ∧
      (remove_account L uid st a).db = st) ∧
    ((clear_rpc L a).success = true → (rm_rpc L a).success = true →
      (remove_account L uid st a).db.assignments = deleteFirstByName a st.assignments) := by
  by_cases hc : (clear_rpc L a).success
  · by_cases hr : (rm_rpc L a).success
    · cases hf : st.assignments.find? (fun aa => aa.2 = a) with
      | none =>
        refine ⟨?_, ?_, ?_, ?_⟩ <;>
          simp [remove_account, renderAccounts, hc, hr, hf, deleteFirstByName_eq_self hf]
      | some aa =>
        refine ⟨?_, ?_, ?_, ?_⟩ <;>
          simp [remove_account, renderAccounts, hc, hr, hf]
    · have hr' : (rm_rpc L a).success = false := by simpa using hr
      refine ⟨?_, ?_, ?_, ?_⟩ <;>
        simp [remove_account, renderAccounts, hc, hr']
  · have hc' : (clear_rpc L a).success = false := by simpa using hc
    refine ⟨?_, ?_, ?_, ?_⟩ <;>
      simp [remove_account, renderAccounts, hc', gaiCmd]

/-- Witness for C1: on a ledger whose `clear` fails the table is unchanged;
on one where `clear` succeeds and `rm` fails it is unchanged; on a fully
successful ledger the row is deleted. -/
theorem c1_remove_ordering_witness :
    (remove_account noLedger 1 stAlice1 "acct1").db = stAlice1 ∧
    (remove_account rmFailLedger 1 stAlice1 "acct1").db = stAlice1 ∧
    (remove_account (okLedger "n") 1 stAlice1 "acct1").db.assignments =
      deleteFirstByName "acct1" stAlice1.assignments :=
  ⟨((c1_remove_ordering noLedger 1 stAlice1 "acct1").2.1 (by decide)).2,
   ((c1_remove_ordering rmFailLedger 1 stAlice1 "acct1").2.2.1 (by decide) (by decide)).2,
   (c1_remove_ordering (okLedger "n") 1 stAlice1 "acct1").2.2.2 (by decide) (by decide)⟩

/-- Counterexample to C2 as stated: at the cap, `new_account` does issue an
RPC call to the ledger — rendering the error page queries `getaccountinfo`
— so "without issuing any RPC call to the ledger" is false of the code
path, although no `create` command is sent. -/
theorem c2_counterexample :
    (user_accounts 1 stAlice1).length ≥ cfg1.accountsPerUser ∧
    (new_account (okLedger "n") 1 stAlice1 cfg1 "alice").outcome =
      .errPage "max 1 accounts per user" ∧
    (new_account (okLedger "n") 1 stAlice1 cfg1 "alice").calls =
      [["getaccountinfo", "acct1"]] := by
  decide

/-- C2 (amended): for every user at or above the configured limit,
`new_account` returns the error page whose message states the configured
limit, leaves the table unchanged, and issues no ledger `create` command;
its only RPC traffic is the read-only `getaccountinfo` query issued while
rendering the response page. -/
theorem c2_cap_check (L : Ledger) (uid : Nat) (st : Db) (cfg : Config) (lbl : String)
    (h : (user_accounts uid st).length ≥ cfg.accountsPerUser) :
    (new_account L uid st cfg lbl).outcome = .errPage (capMsg cfg.accountsPerUser) ∧
    (new_account L uid st cfg lbl).calls = [gaiCmd uid st] ∧
    (∀ c ∈ (new_account L uid st cfg lbl).calls, c.head? ≠ some "create") ∧
    (new_account L uid st cfg lbl).db = st := by
  refine ⟨?_, ?_, ?_, ?_⟩ <;> simp [new_account, renderAccounts, h, gaiCmd]

/-- Witness for C2 (amended): Alice at the one-account cap. -/
theorem c2_cap_check_witness :
    (new_account (okLedger "n") 1 stAlice1 cfg1 "alice").outcome =
      .errPage (capMsg cfg1.accountsPerUser) ∧
    (new_account (okLedger "n") 1 stAlice1 cfg1 "alice").db = stAlice1 :=
  ⟨(c2_cap_check (okLedger "n") 1 stAlice1 cfg1 "alice" (by decide)).1,
   (c2_cap_check (okLedger "n") 1 stAlice1 cfg1 "alice" (by decide)).2.2.2⟩

/-- Counterexample to C3 as stated: from the empty table, a fully
successful sequence of `Create` operations (Bob creates under his own
username, then Alice — herself under the cap — creates requesting the label
`bob`) leaves user 2 holding two accounts under a one-account-per-user
configuration, because the post-creation lookup binds the new account to
the label's owner rather than to the caller. -/
theorem c3_counterexample :
    opsOk cfg1 stEmpty2 cexOps = true ∧
    cfg1.accountsPerUser = 1 ∧
    user_accounts 2 (execOps cfg1 stEmpty2 cexOps) = ["acctB1", "acctB2"] := by
  decide

/-- C3 (amended): for every user, after any sequence of successful `Create`
and `Remove` operations starting from an empty assignment table — provided
registered usernames are distinct and each `Create` requests the calling
user's own username — the user's account count never exceeds the configured
`AccountsPerUser` limit. -/
theorem c3_cap_invariant (cfg : Config) (users : List UserRec) (ops : List GOp)
    (hnd : (users.map UserRec.username).Nodup)
    (hown : ops.all (createOwn users) = true)
    (hok : opsOk cfg { users := users, assignments := [] } ops = true) :
    ∀ uid,
      (user_accounts uid (execOps cfg { users := users, assignments := [] } ops)).length ≤
        cfg.accountsPerUser := by
  refine execOps_cap_inv cfg users hnd ops _ rfl hown hok ?_
  intro uid
  simp [user_accounts]

/-- Witness for C3 (amended): Alice creating under her own username stays
within the cap. -/
theorem c3_cap_invariant_witness :
    (user_accounts 1 (execOps cfg1 { users := [⟨1, "alice"⟩], assignments := [] } ownOps)).length ≤
      cfg1.accountsPerUser :=
  c3_cap_invariant cfg1 [⟨1, "alice"⟩] ownOps (by decide) (by decide) (by decide) 1

/-- C4: the code contradicts the specification's `NotFound` contract.
Removing an account with no matching assignment row, with both ledger calls
succeeding, reaches `db.session.delete(None)` and raises an unhandled
fault instead of returning an explicit error result; the table is left
unchanged and both ledger commands were already issued. -/
theorem c4_delete_of_nothing_faults :
    (remove_account (okLedger "n") 1 stOther "ghost").outcome = .fault ∧
    (remove_account (okLedger "n") 1 stOther "ghost").db = stOther ∧
    (remove_account (okLedger "n") 1 stOther "ghost").calls =
      [["clear", "ghost"], ["rm", "ghost"]] := by
  decide

/-- Counterexample to C5 as stated: Alice (user 1, under the cap) requests
the label `bob`; the ledger create succeeds, yet the new assignment is
bound to user 2 — the registered owner of the username `bob` — not to the
requesting user. -/
theorem c5_counterexample :
    (new_account (okLedger "n1") 1 stEmpty2 cfg1 "bob").outcome = .ok ∧
    (new_account (okLedger "n1") 1 stEmpty2 cfg1 "bob").db.assignments = [(2, "n1")] ∧
    user_accounts 1 (new_account (okLedger "n1") 1 stEmpty2 cfg1 "bob").db = [] ∧
    user_accounts 2 (new_account (okLedger "n1") 1 stEmpty2 cfg1 "bob").db = ["n1"] := by
  decide

/-- C5 (amended): when the cap check passes, `new_account` issues the
ledger create command carrying exactly the requested username label, the
configured cap amount and the configured starting balance; on ledger
success it binds the returned account name to the registered user whose
username equals the requested label (which is the requester exactly when
the requester supplies their own username). -/
theorem c5_create_binding (L : Ledger) (uid : Nat) (st : Db) (cfg : Config) (lbl : String)
    (u : UserRec)
    (hcap : (user_accounts uid st).length < cfg.accountsPerUser)
    (hok : (create_rpc L cfg lbl).success = true)
    (hfind : st.users.find? (fun x => x.username = lbl) = some u) :
    (new_account L uid st cfg lbl).calls.head? =
      some ["create", "-a", lbl, "-c", cfg.cap, cfg.startBalance] ∧
    (new_account L uid st cfg lbl).db.assignments =
      st.assignments ++ [(u.id, (create_rpc L cfg lbl).name)] ∧
    (new_account L uid st cfg lbl).outcome = .ok := by
  have hcap' : ¬ (user_accounts uid st).length ≥ cfg.accountsPerUser := by omega
  refine ⟨?_, ?_, ?_⟩ <;>
    simp [new_account, renderAccounts, hcap', hok, hfind, createCmd]

/-- Witness for C5 (amended): Alice creates under her own username; the
create command carries the label, cap and start balance, and the account is
bound to her id. -/
theorem c5_create_binding_witness :
    (new_account (okLedger "n1") 1 stEmpty2 cfg1 "alice").calls.head? =
      some ["create", "-a", "alice", "-c", cfg1.cap, cfg1.startBalance] ∧
    (new_account (okLedger "n1") 1 stEmpty2 cfg1 "alice").db.assignments =
      stEmpty2.assignments ++ [((1 : Nat), (create_rpc (okLedger "n1") cfg1 "alice").name)] ∧
    (new_account (okLedger "n1") 1 stEmpty2 cfg1 "alice").outcome = .ok :=
  c5_create_binding (okLedger "n1") 1 stEmpty2 cfg1 "alice" ⟨1, "alice"⟩
    (by decide) (by decide) (by decide)

end Custodial

namespace Custodial

/-- On well-formed receipts, `format_receipts` equals the specification's
session-by-session, entry-by-entry description. -/
theorem format_receipts_eq {W : Type} (ctime : Int → String)
    (wadC : PyVal → Except String W) (wadS : W → String) :
    ∀ receipts : List Session, receiptsWT wadC receipts = true →
    format_receipts ctime wadC wadS receipts =
      some (receipts.map (fun s => FSession.mk (s.map (specEntry ctime wadC wadS)))) := by
  intro receipts
  induction receipts with
  | nil => intro _; simp [format_receipts]
  | cons s rest ih =>
    intro h
    rw [receiptsWT, List.all_cons, Bool.and_eq_true] at h
    obtain ⟨hs, hrest⟩ := h
    rw [format_receipts, formatSession_eq ctime wadC wadS s hs,
      ih (by rw [receiptsWT]; exact hrest)]
    simp

/-- C6: on well-formed receipt sessions, `format_receipts` returns exactly
one display session per input session and one display entry per input
entry, in order, each entry given by `specEntry`: the `type` field with
underscores replaced by spaces and then title-cased, the `time` field
rendered through the timestamp function, the `wad` field decoded via the
amount codec under the label `Wad`, and every other field as the pair
(title-cased name, string form), all in field order.  The transform is a
pure function of its input. -/
theorem c6_format_receipts_spec {W : Type} (ctime : Int → String)
    (wadC : PyVal → Except String W) (wadS : W → String) (receipts : List Session)
    (h : receiptsWT wadC receipts = true) :
    format_receipts ctime wadC wadS receipts =
      some (receipts.map (fun s => FSession.mk (s.map (specEntry ctime wadC wadS)))) ∧
    ∀ out, format_receipts ctime wadC wadS receipts = some out →
      out.length = receipts.length ∧
      ∀ i (hi : i < out.length) (hj : i < receipts.length),
        (out.get ⟨i, hi⟩).entries.length = (receipts.get ⟨i, hj⟩).length := by
  have hmain := format_receipts_eq ctime wadC wadS receipts h
  refine ⟨hmain, ?_⟩
  intro out hout
  rw [hmain] at hout
  injection hout with hout
  subst hout
  constructor
  · simp
  · intro i hi hj
    simp [List.get_eq_getElem]

/-- Witness for C6: the spec's one-session example evaluates to the
predicted display form, including the literal `Lightning Payment` title
and the `("Wad", "$5")` leading value pair. -/
theorem c6_format_receipts_spec_witness :
    receiptsWT wadCW wEx = true ∧
    format_receipts ctimeW wadCW wadSW wEx =
      some (wEx.map (fun s => FSession.mk (s.map (specEntry ctimeW wadCW wadSW)))) ∧
    format_receipts ctimeW wadCW wadSW wEx =
      some [⟨[⟨some "Lightning Payment", some "Tue Nov 14 22:13:20 2023",
        [("Wad", "$5")]⟩]⟩] :=
  ⟨by decide, (c6_format_receipts_spec ctimeW wadCW wadSW wEx (by decide)).1, by decide⟩

/-- C7: every gateway RPC helper — `getaccountinfo`, `getaccountreceipts`,
`connect`, `clear`, `rm`, `create` — converts a raised transport exception
into the failure dict whose caller-facing message is the generic string
`RPC exception`; the helpers are total, so no raw exception propagates. -/
theorem c7_transport_errors {W : Type} (wadC : PyVal → Except String W) (wadS : W → String)
    (L : Ledger) (uid : Nat) (st : Db) (a b lbl : String) (cfg : Config) :
    ((∃ e, L ["clear", a] = .error e) → clear_rpc L a = .exnErr) ∧
    ((∃ e, L ["rm", a] = .error e) → rm_rpc L a = .exnErr) ∧
    ((∃ e, L ["connect", a, b] = .error e) → connect_rpc L a b = .exnErr) ∧
    ((∃ e, L ["getaccountreceipts", a] = .error e) → getaccountreceipts_rpc L a = .exnErr) ∧
    ((∃ e, L (createCmd cfg lbl) = .error e) → create_rpc L cfg lbl = .exnErr) ∧
    ((∃ e, L (gaiCmd uid st) = .error e) →
      getaccountinfo_rpc wadC wadS L uid st = .err "RPC exception") ∧
    WrapResult.exnErr.error = "RPC exception" := by
  refine ⟨?_, ?_, ?_, ?_, ?_, ?_, rfl⟩ <;>
    rintro ⟨e, he⟩ <;>
    simp [clear_rpc, rm_rpc, connect_rpc, getaccountreceipts_rpc, create_rpc,
      getaccountinfo_rpc, wrapCall, he, Except.bind]

/-- Witness for C7: a transport that raises on every command yields the
`RPC exception` failure result from all six helpers. -/
theorem c7_transport_errors_witness :
    clear_rpc exnLedger "acct1" = .exnErr ∧
    rm_rpc exnLedger "acct1" = .exnErr ∧
    connect_rpc exnLedger "acct1" "b" = .exnErr ∧
    getaccountreceipts_rpc exnLedger "acct1" = .exnErr ∧
    create_rpc exnLedger cfg1 "alice" = .exnErr ∧
    getaccountinfo_rpc wadCW wadSW exnLedger 1 stAlice1 = .err "RPC exception" :=
  ⟨(c7_transport_errors wadCW wadSW exnLedger 1 stAlice1 "acct1" "b" "alice" cfg1).1
      ⟨"connection refused", rfl⟩,
   (c7_transport_errors wadCW wadSW exnLedger 1 stAlice1 "acct1" "b" "alice" cfg1).2.1
      ⟨"connection refused", rfl⟩,
   (c7_transport_errors wadCW wadSW exnLedger 1 stAlice1 "acct1" "b" "alice" cfg1).2.2.1
      ⟨"connection refused", rfl⟩,
   (c7_transport_errors wadCW wadSW exnLedger 1 stAlice1 "acct1" "b" "alice" cfg1).2.2.2.1
      ⟨"connection refused", rfl⟩,
   (c7_transport_errors wadCW wadSW exnLedger 1 stAlice1 "acct1" "b" "alice" cfg1).2.2.2.2.1
      ⟨"connection refused", rfl⟩,
   (c7_transport_errors wadCW wadSW exnLedger 1 stAlice1 "acct1" "b" "alice" cfg1).2.2.2.2.2.1
      ⟨"connection refused", rfl⟩⟩

/-- C8: each `generate_beacon` invocation builds a fresh beacon holding
exactly the one configured relay location and issues the ledger `connect`
command with its serialization; two invocations drawing distinct ephemeral
identifiers — the spec guarantees a distinct identifier per construction —
serialize to strings that are never byte-identical, even for the same
account and relay location. -/
theorem c8_beacon_fresh (cfg : Config) (L : Ledger) (uid : Nat) (st : Db)
    (a s1 s2 : String) (h : s1 ≠ s2) :
    (connectBeacon cfg s1).locations = [cfg.relayLocation] ∧
    (generate_beacon L s1 uid st cfg a).calls.head? =
      some ["connect", a, beaconStr (connectBeacon cfg s1)] ∧
    beaconStr (connectBeacon cfg s1) ≠ beaconStr (connectBeacon cfg s2) := by
  refine ⟨rfl, ?_, ?_⟩
  · by_cases hs : (connect_rpc L a (beaconStr (connectBeacon cfg s1))).success
    · simp [generate_beacon, renderAccounts, hs]
    · have hs' : (connect_rpc L a (beaconStr (connectBeacon cfg s1))).success = false := by
        simpa using hs
      simp [generate_beacon, renderAccounts, hs']
  · exact append_ne_append_right h

/-- Witness for C8: two concrete distinct seeds give distinct serialized
beacon strings over the same configuration. -/
theorem c8_beacon_fresh_witness :
    (connectBeacon cfg1 "seedA").locations = [cfg1.relayLocation] ∧
    beaconStr (connectBeacon cfg1 "seedA") ≠ beaconStr (connectBeacon cfg1 "seedB") :=
  ⟨(c8_beacon_fresh cfg1 (okLedger "n") 1 stAlice1 "acct1" "seedA" "seedB" (by decide)).1,
   (c8_beacon_fresh cfg1 (okLedger "n") 1 stAlice1 "acct1" "seedA" "seedB" (by decide)).2.2⟩

/-- C9: the receipts-listing, connect, clear and remove actions act on the
account named in the request form with no ownership verification: for every
caller and every assignment table — in particular whether or not the caller
owns the named account — the ledger-directed commands (everything except
the `getaccountinfo` query of page rendering) are the same fixed commands
on that account, and `remove_account` deletes the first row carrying the
name regardless of which user owns it. -/
theorem c9_no_ownership {W : Type} (ctime : Int → String) (wadC : PyVal → Except String W)
    (wadS : W → String) (L : Ledger) (cfg : Config) (seed : String) (uid : Nat) (st : Db)
    (a : String) :
    nonRender (list_receipts ctime wadC wadS L uid st a) = [["getaccountreceipts", a]] ∧
    nonRender (generate_beacon L seed uid st cfg a) =
      [["connect", a, beaconStr (connectBeacon cfg seed)]] ∧
    nonRender (clear_beacons L uid st a) = [["clear", a]] ∧
    nonRender (remove_account L uid st a) =
      (if (clear_rpc L a).success then [["clear", a], ["rm", a]] else [["clear", a]]) ∧
    (remove_account L uid st a).db.assignments =
      (if (clear_rpc L a).success && (rm_rpc L a).success then
        deleteFirstByName a st.assignments
      else st.assignments) := by
  refine ⟨?_, ?_, ?_, ?_, ?_⟩
  · by_cases hs : (getaccountreceipts_rpc L a).success
    · cases hf : format_receipts ctime wadC wadS (getaccountreceipts_rpc L a).receipts <;>
        simp [list_receipts, renderAccounts, nonRender, hs, hf, gaiCmd]
    · have hs' : (getaccountreceipts_rpc L a).success = false := by simpa using hs
      simp [list_receipts, renderAccounts, nonRender, hs', gaiCmd]
  · by_cases hs : (connect_rpc L a (beaconStr (connectBeacon cfg seed))).success
    · simp [generate_beacon, renderAccounts, nonRender, hs, gaiCmd]
    · have hs' : (connect_rpc L a (beaconStr (connectBeacon cfg seed))).success = false := by
        simpa using hs
      simp [generate_beacon, renderAccounts, nonRender, hs', gaiCmd]
  · by_cases hs : (clear_rpc L a).success
    · simp [clear_beacons, renderAccounts, nonRender, hs, gaiCmd]
    · have hs' : (clear_rpc L a).success = false := by simpa using hs
      simp [clear_beacons, renderAccounts, nonRender, hs', gaiCmd]
  · by_cases hc : (clear_rpc L a).success
    · by_cases hr : (rm_rpc L a).success
      · cases hf : st.assignments.find? (fun aa => aa.2 = a) <;>
          simp [remove_account, renderAccounts, nonRender, hc, hr, hf, gaiCmd]
      · have hr' : (rm_rpc L a).success = false := by simpa using hr
        simp [remove_account, renderAccounts, nonRender, hc, hr', gaiCmd]
    · have hc' : (clear_rpc L a).success = false := by simpa using hc
      simp [remove_account, renderAccounts, nonRender, hc', gaiCmd]
  · by_cases hc : (clear_rpc L a).success
    · by_cases hr : (rm_rpc L a).success
      · cases hf : st.assignments.find? (fun aa => aa.2 = a) with
        | none =>
          simp [remove_account, renderAccounts, hc, hr, hf, deleteFirstByName_eq_self hf]
        | some aa => simp [remove_account, renderAccounts, hc, hr, hf]
      · have hr' : (rm_rpc L a).success = false := by simpa using hr
        simp [remove_account, renderAccounts, hc, hr']
    · have hc' : (clear_rpc L a).success = false := by simpa using hc
      simp [remove_account, renderAccounts, hc']

/-- C10: when the cap check passes and the ledger create succeeds but no
registered user's username equals the requested label, `new_account`
dereferences the missing user record (`u.id` on `None`) and faults with an
unhandled error — no error result, no page — leaving the table unchanged;
the lookup was keyed on the requested label, not on the caller. -/
theorem c10_label_lookup (L : Ledger) (uid : Nat) (st : Db) (cfg : Config) (lbl : String)
    (hcap : (user_accounts uid st).length < cfg.accountsPerUser)
    (hok : (create_rpc L cfg lbl).success = true)
    (hnone : st.users.find? (fun x => x.username = lbl) = none) :
    (new_account L uid st cfg lbl).outcome = .fault ∧
    (new_account L uid st cfg lbl).db = st ∧
    (new_account L uid st cfg lbl).calls = [createCmd cfg lbl] := by
  have hcap' : ¬ (user_accounts uid st).length ≥ cfg.accountsPerUser := by omega
  refine ⟨?_, ?_, ?_⟩ <;>
    simp [new_account, renderAccounts, hcap', hok, hnone]

/-- Witness for C10: Alice is registered and under the cap, the ledger
create succeeds, yet requesting the unregistered label `carol` faults. -/
theorem c10_label_lookup_witness :
    (new_account (okLedger "n1") 1 stOneUser cfg1 "carol").outcome = .fault ∧
    (new_account (okLedger "n1") 1 stOneUser cfg1 "carol").db = stOneUser ∧
    (new_account (okLedger "n1") 1 stOneUser cfg1 "carol").calls = [createCmd cfg1 "carol"] :=
  c10_label_lookup (okLedger "n1") 1 stOneUser cfg1 "carol" (by decide) (by decide) (by decide)

end Custodial
